import Mathlib

/-!
A shallow embedding of the temp-mail alias lifecycle service (`main.go`) and
proofs about its lifecycle operations.

The `emails` SQLite table is modelled as a list of rows; each HTTP handler is a
function from the query parameters and the table to an HTTP outcome paired with
the updated table.  Remote Cloudflare calls (`createCFRule`, `updateCFRule`,
`deleteCFRule`) are modelled as function parameters returning `Except`, so each
theorem quantifies over every possible remote behaviour.  Wall-clock time is an
integer (seconds); one hour is 3600.
-/

/-- A row of the `emails` table (struct `EmailEntry` in the source). -/
structure EmailEntry where
  id : Nat
  Alias : String
  rule_id : String
  created_at : Int
  expires_at : Int
  status : String
deriving DecidableEq, Repr

/-- The `emails` table contents. -/
abbrev Store := List EmailEntry

/-- Outcome of a handler: `http.Redirect(w, r, loc, 303)` or `http.Error(w, msg, code)`. -/
inductive HResp where
  | redirect (loc : String)
  | httpError (msg : String) (code : Nat)
deriving DecidableEq, Repr

/-- Row effect of `UPDATE emails SET expires_at = datetime(expires_at, '+1 hour')
WHERE id = ? AND status = 'active'` (in `handleRenew`). -/
def renewRow (id : Nat) (r : EmailEntry) : EmailEntry :=
  if r.id = id ∧ r.status = "active" then { r with expires_at := r.expires_at + 3600 } else r

/-- Handler `handleRenew`: conditionally extend expiry by one hour, then redirect.
A `db.Exec` error is only logged in the source, never surfaced. -/
def handleRenew (id : Nat) (db : Store) : HResp × Store :=
  (HResp.redirect "/", db.map (renewRow id))

/-- Row effect of `UPDATE emails SET status = ? WHERE id = ?` (in `handleToggle`). -/
def toggleRow (id : Nat) (newStatus : String) (r : EmailEntry) : EmailEntry :=
  if r.id = id then { r with status := newStatus } else r

/-- Handler `handleToggle`: look the row up (`QueryRow ... Scan` errors with no row),
flip the status, call `updateCFRule` and abort on its failure, else write the
new status and redirect. -/
def handleToggle (updateCFRule : String → Bool → Except String Unit)
    (id : Nat) (db : Store) : HResp × Store :=
  match db.find? (fun r => r.id == id) with
  | none => (HResp.httpError "sql: no rows in result set" 500, db)
  | some e =>
    let newStatus := if e.status = "active" then "inactive" else "active"
    let cfEnabled := if e.status = "active" then false else true
    match updateCFRule e.rule_id cfEnabled with
    | Except.error m => (HResp.httpError ("Erro ao atualizar CF: " ++ m) 500, db)
    | Except.ok _ => (HResp.redirect "/", db.map (toggleRow id newStatus))

/-- Row effect of `UPDATE emails SET status = 'deleted', rule_id = '' WHERE id = ?`,
shared verbatim by `handleDelete` and `checkExpiredEmails`. -/
def markDeletedRow (id : Nat) (r : EmailEntry) : EmailEntry :=
  if r.id = id then { r with status := "deleted", rule_id := "" } else r

/-- Handler `handleDelete`: read `rule_id` (a failed `Scan` leaves the zero value `""`),
best-effort `deleteCFRule` whose result is discarded, unconditionally mark the
row deleted and clear its rule id, redirect. -/
def handleDelete (deleteCFRule : String → Except String Unit)
    (id : Nat) (db : Store) : HResp × Store :=
  let ruleID := match db.find? (fun r => r.id == id) with
    | none => ""
    | some e => e.rule_id
  let _ := if ruleID ≠ "" then some (deleteCFRule ruleID) else none
  (HResp.redirect "/", db.map (markDeletedRow id))

/-- Handler `handleGenerate`: build `<random>@<domain>`, call `createCFRule`; on failure
respond 500 and insert nothing; on success insert an `active` row whose
`expires_at` is one hour from now, and redirect.  `newId` is the id the store
assigns (AUTOINCREMENT); `created_at` is the insertion timestamp. -/
def handleGenerate (createCFRule : String → Bool → Except String String)
    (randPart domain : String) (now : Int) (newId : Nat) (db : Store) : HResp × Store :=
  let fullEmail := randPart ++ "@" ++ domain
  match createCFRule fullEmail true with
  | Except.error m => (HResp.httpError ("Erro Cloudflare: " ++ m) 500, db)
  | Except.ok ruleID =>
      (HResp.redirect "/",
        db ++ [{ id := newId, Alias := fullEmail, rule_id := ruleID,
                 created_at := now, expires_at := now + 3600, status := "active" }])

/-- Row effect of `UPDATE emails SET status = 'active', rule_id = ?, expires_at = ?
WHERE id = ?` (in `handleRecreate`). -/
def recreateRow (id : Nat) (ruleID : String) (expiresAt : Int) (r : EmailEntry) : EmailEntry :=
  if r.id = id then { r with status := "active", rule_id := ruleID, expires_at := expiresAt } else r

/-- Handler `handleRecreate`: read the alias (failed `Scan` leaves `""`), create a fresh
remote rule and abort on its failure, else set the row back to `active` with the
new rule id and a reset one-hour expiry, and redirect. -/
def handleRecreate (createCFRule : String → Bool → Except String String)
    (now : Int) (id : Nat) (db : Store) : HResp × Store :=
  let aliasVal := match db.find? (fun r => r.id == id) with
    | none => ""
    | some e => e.Alias
  match createCFRule aliasVal true with
  | Except.error m => (HResp.httpError ("Erro ao recriar: " ++ m) 500, db)
  | Except.ok ruleID => (HResp.redirect "/", db.map (recreateRow id ruleID (now + 3600)))

/-- The sweeper's query `SELECT id, rule_id, alias FROM emails WHERE
status = 'active' AND expires_at < datetime('now')`. -/
def listExpiredActive (now : Int) (db : Store) : List EmailEntry :=
  db.filter (fun r => r.status == "active" && decide (r.expires_at < now))

/-- Sweeper tick `checkExpiredEmails`.  For each expired-active row, call
`deleteCFRule` when the rule id is non-empty (result discarded), then mark the
row deleted and clear its rule id. -/
def checkExpiredEmails (deleteCFRule : String → Except String Unit)
    (now : Int) (db : Store) : Store :=
  (listExpiredActive now db).foldl (fun acc e =>
    let _ := if e.rule_id ≠ "" then some (deleteCFRule e.rule_id) else none
    acc.map (markDeletedRow e.id)) db

/-- The `CASE WHEN status='active' THEN 1 ELSE 2 END` sort key of `handleIndex`. -/
def statusRank (r : EmailEntry) : Nat := if r.status = "active" then 1 else 2

/-- The `ORDER BY` relation of `handleIndex`: primary key `statusRank`
ascending, secondary key `created_at` descending. -/
def indexOrder (a b : EmailEntry) : Prop :=
  statusRank a < statusRank b ∨ (statusRank a = statusRank b ∧ b.created_at ≤ a.created_at)

instance : DecidableRel indexOrder := fun a b => by
  unfold indexOrder; infer_instance

instance : IsTotal EmailEntry indexOrder := by
  constructor
  intro a b
  unfold indexOrder
  rcases Nat.lt_trichotomy (statusRank a) (statusRank b) with h | h | h
  · exact Or.inl (Or.inl h)
  · rcases le_total b.created_at a.created_at with h2 | h2
    · exact Or.inl (Or.inr ⟨h, h2⟩)
    · exact Or.inr (Or.inr ⟨h.symm, h2⟩)
  · exact Or.inr (Or.inl h)

instance : IsTrans EmailEntry indexOrder := by
  constructor
  intro a b c hab hbc
  unfold indexOrder at hab hbc ⊢
  rcases hab with h1 | ⟨h1, h1c⟩
  · rcases hbc with h2 | ⟨h2, _⟩
    · exact Or.inl (h1.trans h2)
    · exact Or.inl (h2 ▸ h1)
  · rcases hbc with h2 | ⟨h2, h2c⟩
    · exact Or.inl (h1 ▸ h2)
    · exact Or.inr ⟨h1.trans h2, h2c.trans h1c⟩

/-- The row sequence produced by `handleIndex`'s `SELECT ... ORDER BY`. -/
def listAll (db : Store) : List EmailEntry := List.insertionSort indexOrder db

example : listAll [] = [] := rfl

example :
    (handleRenew 1 [⟨1, "a@b", "x", 0, 10, "active"⟩]).2 =
      [⟨1, "a@b", "x", 0, 3610, "active"⟩] := by decide

example :
    (handleRenew 1 [⟨1, "a@b", "", 0, 10, "deleted"⟩]).2 =
      [⟨1, "a@b", "", 0, 10, "deleted"⟩] := by decide

/-! ### Helper lemmas -/

theorem checkExpiredEmails_eq (deleteCFRule : String → Except String Unit)
    (now : Int) (db : Store) :
    checkExpiredEmails deleteCFRule now db =
      (listExpiredActive now db).foldl (fun acc x => acc.map (markDeletedRow x.id)) db := rfl

theorem map_id_of_fix (f : EmailEntry → EmailEntry) :
    ∀ db : Store, (∀ r ∈ db, f r = r) → db.map f = db := by
  intro db h
  induction db with
  | nil => rfl
  | cons a l ih =>
      simp only [List.map_cons]
      rw [h a (by simp), ih (fun r hr => h r (by simp [hr]))]

theorem row_eta_status (r : EmailEntry) (s : String) (h : r.status = s) :
    ({ r with status := s } : EmailEntry) = r := by
  cases r; simp_all

theorem row_eta_status_rule (r : EmailEntry) (s rid : String)
    (h1 : r.status = s) (h2 : r.rule_id = rid) :
    ({ r with status := s, rule_id := rid } : EmailEntry) = r := by
  cases r; simp_all

theorem markDeletedRow_fix (j : Nat) (e : EmailEntry)
    (hst : e.status = "deleted") (hrid : e.rule_id = "") :
    markDeletedRow j e = e := by
  unfold markDeletedRow
  by_cases h : e.id = j
  · rw [if_pos h]; exact row_eta_status_rule e _ _ hst hrid
  · rw [if_neg h]

/-! ### C5 -/

/-- C5: `listExpiredActive now` returns only rows whose status is `active` and
whose `expires_at` is strictly before `now`. -/
theorem listExpiredActive_only_expired_active (now : Int) (db : Store) (e : EmailEntry)
    (he : e ∈ listExpiredActive now db) :
    e.status = "active" ∧ e.expires_at < now := by
  unfold listExpiredActive at he
  rw [List.mem_filter] at he
  simpa using he.2

def w5row : EmailEntry := ⟨1, "a@b", "x", 0, 5, "active"⟩

/-- Witness for C5 at a concrete store and time. -/
theorem listExpiredActive_only_expired_active_witness :
    w5row.status = "active" ∧ w5row.expires_at < 10 :=
  listExpiredActive_only_expired_active 10 [w5row] w5row (by decide)

/-! ### C4 -/

/-- C4: when `createCFRule` fails, `handleGenerate` responds with an error and
inserts nothing (the store is returned unchanged). -/
theorem generate_createRule_error_no_insert
    (createCFRule : String → Bool → Except String String)
    (randPart domain : String) (now : Int) (newId : Nat) (db : Store) (m : String)
    (h : createCFRule (randPart ++ "@" ++ domain) true = Except.error m) :
    (handleGenerate createCFRule randPart domain now newId db).2 = db ∧
    (handleGenerate createCFRule randPart domain now newId db).1 =
      HResp.httpError ("Erro Cloudflare: " ++ m) 500 := by
  constructor <;> simp [handleGenerate, h]

/-- Witness for C4 with an always-failing provider. -/
theorem generate_createRule_error_no_insert_witness :
    (handleGenerate (fun _ _ => Except.error "boom") "ab" "ex.com" 0 1 []).2 = [] ∧
    (handleGenerate (fun _ _ => Except.error "boom") "ab" "ex.com" 0 1 []).1 =
      HResp.httpError ("Erro Cloudflare: " ++ "boom") 500 :=
  generate_createRule_error_no_insert (fun _ _ => Except.error "boom") "ab" "ex.com" 0 1 [] "boom" rfl

/-! ### C3 -/

/-- C3: when the remote enable/disable call fails, `handleToggle` leaves the
store untouched and surfaces the error to the caller. -/
theorem toggle_remote_error_no_write
    (updateCFRule : String → Bool → Except String Unit) (id : Nat) (db : Store)
    (e : EmailEntry) (hfind : db.find? (fun r => r.id == id) = some e) (m : String)
    (hfail : updateCFRule e.rule_id (if e.status = "active" then false else true) =
      Except.error m) :
    (handleToggle updateCFRule id db).2 = db ∧
    (handleToggle updateCFRule id db).1 = HResp.httpError ("Erro ao atualizar CF: " ++ m) 500 := by
  by_cases hs : e.status = "active"
  · rw [if_pos hs] at hfail
    constructor <;> simp [handleToggle, hfind, hs, hfail]
  · rw [if_neg hs] at hfail
    constructor <;> simp [handleToggle, hfind, hs, hfail]

def w3row : EmailEntry := ⟨1, "a@b", "x", 0, 5, "active"⟩

/-- Witness for C3 with an always-failing remote update. -/
theorem toggle_remote_error_no_write_witness :
    (handleToggle (fun _ _ => Except.error "down") 1 [w3row]).2 = [w3row] ∧
    (handleToggle (fun _ _ => Except.error "down") 1 [w3row]).1 =
      HResp.httpError ("Erro ao atualizar CF: " ++ "down") 500 :=
  toggle_remote_error_no_write (fun _ _ => Except.error "down") 1 [w3row] w3row
    (by decide) "down" rfl

/-! ### C10 -/

/-- C10: on an id absent from the store, `handleDelete` and `handleRenew` both
redirect normally (no NotFound surfaced) and leave every record unchanged. -/
theorem delete_renew_missing_id_noop
    (deleteCFRule : String → Except String Unit) (id : Nat) (db : Store)
    (habsent : ∀ r ∈ db, r.id ≠ id) :
    (handleDelete deleteCFRule id db).1 = HResp.redirect "/" ∧
    (handleDelete deleteCFRule id db).2 = db ∧
    (handleRenew id db).1 = HResp.redirect "/" ∧
    (handleRenew id db).2 = db := by
  refine ⟨rfl, ?_, rfl, ?_⟩
  · show db.map (markDeletedRow id) = db
    exact map_id_of_fix _ db fun r hr => by
      unfold markDeletedRow; rw [if_neg (habsent r hr)]
  · show db.map (renewRow id) = db
    exact map_id_of_fix _ db fun r hr => by
      unfold renewRow
      rw [if_neg]
      rintro ⟨h1, -⟩
      exact habsent r hr h1

def w10row : EmailEntry := ⟨1, "a@b", "x", 0, 5, "active"⟩

/-- Witness for C10: store holds only id 1, the request targets id 2. -/
theorem delete_renew_missing_id_noop_witness :
    (handleDelete (fun _ => Except.error "down") 2 [w10row]).1 = HResp.redirect "/" ∧
    (handleDelete (fun _ => Except.error "down") 2 [w10row]).2 = [w10row] ∧
    (handleRenew 2 [w10row]).1 = HResp.redirect "/" ∧
    (handleRenew 2 [w10row]).2 = [w10row] :=
  delete_renew_missing_id_noop (fun _ => Except.error "down") 2 [w10row]
    (by intro r hr; simp at hr; simp [hr, w10row])

/-! ### C6 -/

/-- C6: `handleRenew` applies `renewRow` to every row; on the targeted row it
extends the expiry by exactly one hour when the status is `active`, and is a
no-op (expiry and status unchanged) when the status is `deleted` or `inactive`. -/
theorem renew_extends_active_only (id : Nat) (db : Store) :
    (handleRenew id db).2 = db.map (renewRow id) ∧
    ∀ r : EmailEntry,
      (r.id = id → r.status = "active" →
        renewRow id r = { r with expires_at := r.expires_at + 3600 }) ∧
      ((r.status = "deleted" ∨ r.status = "inactive") → renewRow id r = r) := by
  refine ⟨rfl, fun r => ⟨?_, ?_⟩⟩
  · intro h1 h2
    unfold renewRow
    rw [if_pos ⟨h1, h2⟩]
  · intro h
    unfold renewRow
    rw [if_neg]
    rintro ⟨-, hact⟩
    rcases h with h | h <;> rw [h] at hact <;> exact absurd hact (by decide)

def w6act : EmailEntry := ⟨1, "a@b", "x", 0, 5, "active"⟩
def w6del : EmailEntry := ⟨2, "c@d", "", 0, 5, "deleted"⟩

/-- Witness for C6 on one active and one deleted row. -/
theorem renew_extends_active_only_witness :
    renewRow 1 w6act = { w6act with expires_at := w6act.expires_at + 3600 } ∧
    renewRow 1 w6del = w6del :=
  ⟨((renew_extends_active_only 1 []).2 w6act).1 rfl rfl,
   ((renew_extends_active_only 1 []).2 w6del).2 (Or.inl rfl)⟩

/-! ### C7 -/

/-- C7: a successful `handleGenerate` appends exactly one new row, with status
`active`, the provider-returned rule id (non-empty when the provider returns a
non-empty id), creation time `now` and expiry exactly `now + 3600`. -/
theorem generate_success_shape
    (createCFRule : String → Bool → Except String String)
    (randPart domain : String) (now : Int) (newId : Nat) (db : Store) (rid : String)
    (hok : createCFRule (randPart ++ "@" ++ domain) true = Except.ok rid)
    (hne : rid ≠ "") :
    ∃ e : EmailEntry,
      (handleGenerate createCFRule randPart domain now newId db).2 = db ++ [e] ∧
      e.status = "active" ∧ e.rule_id = rid ∧ e.rule_id ≠ "" ∧
      e.created_at = now ∧ e.expires_at = now + 3600 := by
  refine ⟨⟨newId, randPart ++ "@" ++ domain, rid, now, now + 3600, "active"⟩,
    ?_, rfl, rfl, hne, rfl, rfl⟩
  simp [handleGenerate, hok]

/-- Witness for C7 with a provider that returns rule id "r9". -/
theorem generate_success_shape_witness :
    ∃ e : EmailEntry,
      (handleGenerate (fun _ _ => Except.ok "r9") "ab" "ex.com" 0 1 []).2 = [] ++ [e] ∧
      e.status = "active" ∧ e.rule_id = "r9" ∧ e.rule_id ≠ "" ∧
      e.created_at = 0 ∧ e.expires_at = 0 + 3600 :=
  generate_success_shape (fun _ _ => Except.ok "r9") "ab" "ex.com" 0 1 [] "r9" rfl (by decide)

/-! ### C1 -/

def deadRow : EmailEntry := ⟨1, "a@b", "", 0, 0, "deleted"⟩

/-- C1 counterexample: a record with status `deleted` is NOT immutable — a
recreate call (with the remote create succeeding) rewrites its status to
`active`, installs a new rule id and a fresh expiry. -/
theorem recreate_mutates_deleted_row :
    deadRow.status = "deleted" ∧
    (handleRecreate (fun _ _ => Except.ok "r2") 100 1 [deadRow]).2 =
      [⟨1, "a@b", "r2", 0, 3700, "active"⟩] := by decide

theorem mem_sweep_of_fixed (e : EmailEntry) (hfix : ∀ j, markDeletedRow j e = e) :
    ∀ (l : List EmailEntry) (acc : Store), e ∈ acc →
      e ∈ l.foldl (fun acc x => acc.map (markDeletedRow x.id)) acc := by
  intro l
  induction l with
  | nil => intro acc h; exact h
  | cons x l ih =>
      intro acc h
      exact ih _ (by rw [← hfix x.id]; exact List.mem_map_of_mem _ h)

/-- C1 amended: a `deleted` record (with its rule id already cleared) is left
unchanged by renew, delete and a sweeper tick; only recreate (and toggle) can
mutate it again, transitioning it back to `active`. -/
theorem deleted_row_fixed_by_renew_delete_sweep
    (deleteCFRule : String → Except String Unit) (id : Nat) (now : Int) (db : Store)
    (e : EmailEntry) (he : e ∈ db) (hst : e.status = "deleted") (hrid : e.rule_id = "") :
    e ∈ (handleRenew id db).2 ∧
    e ∈ (handleDelete deleteCFRule id db).2 ∧
    e ∉ listExpiredActive now db ∧
    e ∈ checkExpiredEmails deleteCFRule now db := by
  have hren : renewRow id e = e := by
    unfold renewRow
    rw [if_neg]
    rintro ⟨-, hact⟩
    rw [hst] at hact
    exact absurd hact (by decide)
  have hmark : ∀ j, markDeletedRow j e = e := fun j => markDeletedRow_fix j e hst hrid
  refine ⟨?_, ?_, ?_, ?_⟩
  · show e ∈ db.map (renewRow id)
    rw [← hren]; exact List.mem_map_of_mem _ he
  · show e ∈ db.map (markDeletedRow id)
    rw [← hmark id]; exact List.mem_map_of_mem _ he
  · intro hmem
    unfold listExpiredActive at hmem
    rw [List.mem_filter] at hmem
    have h2 : e.status = "active" := by
      have hb := (Bool.and_eq_true _ _).mp hmem.2 |>.1
      simpa using hb
    rw [hst] at h2
    exact absurd h2 (by decide)
  · rw [checkExpiredEmails_eq]
    exact mem_sweep_of_fixed e hmark _ db he

/-- Witness for the amended C1 at a concrete deleted row. -/
theorem deleted_row_fixed_witness :
    deadRow ∈ (handleRenew 1 [deadRow]).2 ∧
    deadRow ∈ (handleDelete (fun _ => Except.error "down") 1 [deadRow]).2 ∧
    deadRow ∉ listExpiredActive 100 [deadRow] ∧
    deadRow ∈ checkExpiredEmails (fun _ => Except.error "down") 100 [deadRow] :=
  deleted_row_fixed_by_renew_delete_sweep (fun _ => Except.error "down") 1 100
    [deadRow] deadRow (by decide) rfl rfl

/-! ### C2 -/

theorem mem_map_markDeleted (j : Nat) (acc : Store) (r : EmailEntry)
    (hr : r ∈ acc.map (markDeletedRow j)) (hid : r.id = j) :
    r.status = "deleted" ∧ r.rule_id = "" := by
  rcases List.mem_map.mp hr with ⟨a, -, rfl⟩
  unfold markDeletedRow at hid ⊢
  by_cases h : a.id = j
  · rw [if_pos h]; exact ⟨rfl, rfl⟩
  · rw [if_neg h] at hid ⊢
    exact absurd hid h

theorem sweep_preserves_cleared (i : Nat) :
    ∀ (l : List EmailEntry) (acc : Store),
      (∀ r ∈ acc, r.id = i → r.status = "deleted" ∧ r.rule_id = "") →
      ∀ r ∈ l.foldl (fun acc x => acc.map (markDeletedRow x.id)) acc,
        r.id = i → r.status = "deleted" ∧ r.rule_id = "" := by
  intro l
  induction l with
  | nil => intro acc h; exact h
  | cons x l ih =>
      intro acc h
      refine ih _ ?_
      intro r hr hid
      rcases List.mem_map.mp hr with ⟨a, ha, rfl⟩
      by_cases hx : a.id = x.id
      · unfold markDeletedRow
        rw [if_pos hx]
        exact ⟨rfl, rfl⟩
      · have : markDeletedRow x.id a = a := by unfold markDeletedRow; rw [if_neg hx]
        rw [this] at hid ⊢
        exact h a ha hid

/-- C2: after `handleDelete`, every row carrying the targeted id has status
`deleted` and an empty rule id; after a sweeper tick, the same holds for every
row carrying the id of any expired-active row — in both cases for every
possible remote behaviour, succeeding or failing. -/
theorem delete_and_sweep_always_clear
    (deleteCFRule : String → Except String Unit) (id : Nat) (now : Int) (db : Store) :
    (∀ r ∈ (handleDelete deleteCFRule id db).2, r.id = id →
       r.status = "deleted" ∧ r.rule_id = "") ∧
    (∀ e ∈ listExpiredActive now db,
       ∀ r ∈ checkExpiredEmails deleteCFRule now db, r.id = e.id →
         r.status = "deleted" ∧ r.rule_id = "") := by
  constructor
  · intro r hr hid
    exact mem_map_markDeleted id db r hr hid
  · intro e hmem r hr hid
    rcases List.append_of_mem hmem with ⟨l1, l2, hsplit⟩
    rw [checkExpiredEmails_eq, hsplit, List.foldl_append, List.foldl_cons] at hr
    refine sweep_preserves_cleared e.id l2 _ ?_ r hr hid
    intro s hs hsid
    exact mem_map_markDeleted e.id _ s hs hsid

def w2row : EmailEntry := ⟨1, "a@b", "x", 0, 5, "active"⟩

/-- Witness for C2: delete and sweep of an expired-active row while the remote
delete call fails; the local row is still marked deleted and cleared. -/
theorem delete_and_sweep_always_clear_witness :
    ((⟨1, "a@b", "", 0, 5, "deleted"⟩ : EmailEntry).status = "deleted" ∧
      (⟨1, "a@b", "", 0, 5, "deleted"⟩ : EmailEntry).rule_id = "") ∧
    ((⟨1, "a@b", "", 0, 5, "deleted"⟩ : EmailEntry).status = "deleted" ∧
      (⟨1, "a@b", "", 0, 5, "deleted"⟩ : EmailEntry).rule_id = "") :=
  ⟨(delete_and_sweep_always_clear (fun _ => Except.error "down") 1 10 [w2row]).1
      ⟨1, "a@b", "", 0, 5, "deleted"⟩ (by decide) rfl,
   (delete_and_sweep_always_clear (fun _ => Except.error "down") 1 10 [w2row]).2
      w2row (by decide) ⟨1, "a@b", "", 0, 5, "deleted"⟩ (by decide) rfl⟩

/-! ### C8 -/

theorem find?_map_id_preserving (f : EmailEntry → EmailEntry)
    (hf : ∀ r, (f r).id = r.id) (id : Nat) :
    ∀ db : Store,
      (db.map f).find? (fun r => r.id == id) = (db.find? (fun r => r.id == id)).map f := by
  intro db
  induction db with
  | nil => rfl
  | cons a l ih =>
      by_cases h : a.id = id
      · rw [List.map_cons,
          List.find?_cons_of_pos _ (by simpa [hf] using h),
          List.find?_cons_of_pos _ (by simpa using h)]
        rfl
      · rw [List.map_cons,
          List.find?_cons_of_neg _ (by simpa [hf] using h),
          List.find?_cons_of_neg _ (by simpa using h)]
        exact ih

/-- C8: toggling an `active` alias twice, with the remote provider succeeding on
both the disable and the enable call, returns the store to exactly its original
contents — in particular the alias is `active` again with its original rule id. -/
theorem toggle_twice_roundtrip
    (updateCFRule : String → Bool → Except String Unit) (id : Nat) (db : Store)
    (e : EmailEntry) (hnd : (db.map EmailEntry.id).Nodup)
    (hfind : db.find? (fun r => r.id == id) = some e)
    (hact : e.status = "active")
    (hdis : updateCFRule e.rule_id false = Except.ok ())
    (hen : updateCFRule e.rule_id true = Except.ok ()) :
    (handleToggle updateCFRule id (handleToggle updateCFRule id db).2).2 = db := by
  have heid : e.id = id := by simpa using List.find?_some hfind
  have hmem : e ∈ db := List.mem_of_find?_eq_some hfind
  have hstep1 : (handleToggle updateCFRule id db).2 = db.map (toggleRow id "inactive") := by
    simp [handleToggle, hfind, hact, hdis]
  have hpres : ∀ r, (toggleRow id "inactive" r).id = r.id := by
    intro r; unfold toggleRow; by_cases h : r.id = id <;> simp [h]
  have hfind2 : (db.map (toggleRow id "inactive")).find? (fun r => r.id == id) =
      some (toggleRow id "inactive" e) := by
    rw [find?_map_id_preserving _ hpres id db, hfind]; rfl
  have htog : toggleRow id "inactive" e = { e with status := "inactive" } := by
    unfold toggleRow; rw [if_pos heid]
  rw [hstep1]
  have hstep2 : (handleToggle updateCFRule id (db.map (toggleRow id "inactive"))).2 =
      (db.map (toggleRow id "inactive")).map (toggleRow id "active") := by
    rw [handleToggle, hfind2, htog]
    simp [hen]
  rw [hstep2, List.map_map]
  refine map_id_of_fix _ db ?_
  intro r hr
  by_cases h : r.id = id
  · have hre : r = e := List.inj_on_of_nodup_map hnd hr hmem (by rw [h, heid])
    simp only [Function.comp_apply]
    unfold toggleRow
    rw [if_pos h]
    rw [if_pos (show r.id = id from h)]
    rw [hre]
    exact row_eta_status e "active" hact
  · simp only [Function.comp_apply]
    unfold toggleRow
    rw [if_neg h, if_neg h]

def w8row : EmailEntry := ⟨1, "a@b", "r1", 0, 5, "active"⟩

/-- Witness for C8: one active row, a remote provider that always succeeds. -/
theorem toggle_twice_roundtrip_witness :
    (handleToggle (fun _ _ => Except.ok ()) 1
      (handleToggle (fun _ _ => Except.ok ()) 1 [w8row]).2).2 = [w8row] :=
  toggle_twice_roundtrip (fun _ _ => Except.ok ()) 1 [w8row] w8row
    (by decide) (by decide) rfl rfl rfl

/-! ### C9 -/

/-- C9: `listAll` returns exactly the rows of the store (a permutation of it),
with every `active` row before every non-`active` row, and within each of the
two groups ordered by `created_at` descending (newest first). -/
theorem listAll_active_first_then_newest (db : Store) (i j : Nat)
    (hij : i < j) (hj : j < (listAll db).length) :
    List.Perm (listAll db) db ∧
    (((listAll db).get ⟨j, hj⟩).status = "active" →
      ((listAll db).get ⟨i, Nat.lt_trans hij hj⟩).status = "active") ∧
    ((((listAll db).get ⟨i, Nat.lt_trans hij hj⟩).status = "active" ↔
        ((listAll db).get ⟨j, hj⟩).status = "active") →
      ((listAll db).get ⟨j, hj⟩).created_at ≤
        ((listAll db).get ⟨i, Nat.lt_trans hij hj⟩).created_at) := by
  have hs : List.Sorted indexOrder (listAll db) :=
    List.sorted_insertionSort indexOrder db
  have hrel : indexOrder ((listAll db).get ⟨i, Nat.lt_trans hij hj⟩)
      ((listAll db).get ⟨j, hj⟩) := hs.rel_get_of_lt (Fin.mk_lt_mk.mpr hij)
  unfold indexOrder statusRank at hrel
  refine ⟨List.perm_insertionSort indexOrder db, ?_, ?_⟩
  · intro hjact
    by_contra hiact
    rw [if_pos hjact, if_neg hiact] at hrel
    rcases hrel with h | ⟨h, -⟩ <;> omega
  · intro hiff
    by_cases hia : ((listAll db).get ⟨i, Nat.lt_trans hij hj⟩).status = "active"
    · have hja := hiff.mp hia
      rw [if_pos hia, if_pos hja] at hrel
      rcases hrel with h | ⟨-, h⟩
      · omega
      · exact h
    · have hja : ¬ ((listAll db).get ⟨j, hj⟩).status = "active" :=
        fun hz => hia (hiff.mpr hz)
      rw [if_neg hia, if_neg hja] at hrel
      rcases hrel with h | ⟨-, h⟩
      · omega
      · exact h

def w9a : EmailEntry := ⟨1, "a@a", "r1", 10, 0, "active"⟩
def w9b : EmailEntry := ⟨2, "b@b", "r2", 20, 0, "active"⟩
def w9c : EmailEntry := ⟨3, "c@c", "r3", 30, 0, "inactive"⟩
def w9db : Store := [w9a, w9b, w9c]

/-- Witness for C9 on a three-row store (two active, one inactive). -/
theorem listAll_active_first_then_newest_witness :
    List.Perm (listAll w9db) w9db ∧
    ((listAll w9db).get ⟨0, by decide⟩).status = "active" ∧
    ((listAll w9db).get ⟨1, by decide⟩).created_at ≤
      ((listAll w9db).get ⟨0, by decide⟩).created_at :=
  ⟨(listAll_active_first_then_newest w9db 0 1 (by decide) (by decide)).1,
   (listAll_active_first_then_newest w9db 0 1 (by decide) (by decide)).2.1 (by decide),
   (listAll_active_first_then_newest w9db 0 1 (by decide) (by decide)).2.2 (by decide)⟩
